import Mathlib

/-!
Shallow embedding of the state-owning broadcast actor (the Hub, package
server of FlushCapacitor/flush-capacitor, file server/server.go) and of
the resilient forwarder (file forwarder/forwarder.go). The Hub serializes
every command into one linear sequence of processing steps; we model each
case of the select in Server.loop, together with the synchronous entry
points Server.Terminate and Server.serveSensors, as a pure function from
the Hub state to a new state plus the observable outputs of the step (the
messages written to connections, the watch calls made on capabilities).
Durations of the forwarder backoff are modelled in seconds.
-/

namespace FlushCapacitor

/-- A sensor record, common.Sensor: a name and a state string. -/
structure Sensor where
  name : String
  state : String
deriving DecidableEq, Repr

/-- The state owned by Server.loop (server/server.go): the sensor registry
(srv.sensors, insertion order), the connection registry (srv.conns, handles
modelled as Nat), and the three lifecycle channels runningCh, termCh and
termAckCh modelled as the booleans running (runningCh closed), terminating
(termCh closed) and terminated (termAckCh closed). -/
structure ServerState where
  sensors : List Sensor
  conns : List Nat
  running : Bool
  terminating : Bool
  terminated : Bool
deriving DecidableEq, Repr

/-- The state right after New: empty registries, no lifecycle channel closed. -/
def initialServer : ServerState :=
  { sensors := [], conns := [], running := false,
    terminating := false, terminated := false }

/-- Server.broadcastSensorChange: write the record to every connection in
srv.conns, in order (a write error is logged and does not remove the
connection). The output is the list of (connection, record) writes. -/
def broadcastSensorChange (sensor : Sensor) (conns : List Nat) :
    List (Nat × Sensor) :=
  conns.map (fun c => (c, sensor))

/-- Server.sendSensorStates: write every sensor record to the one
connection, in registry order. -/
def sendSensorStates (conn : Nat) (sensors : List Sensor) :
    List (Nat × Sensor) :=
  sensors.map (fun r => (conn, r))

/-- The sensorChangedCh case of Server.loop: iterate over srv.sensors,
setting record.State to the new state on every record whose name matches
(the records are pointers, so the registry is updated in place) and
remembering whether any matched; if none matched, append the incoming
record; then broadcast the incoming record unconditionally. -/
def sensorChanged (sensor : Sensor) (st : ServerState) :
    ServerState × List (Nat × Sensor) :=
  let updated := st.sensors.any (fun r => r.name = sensor.name)
  let sensors₁ := st.sensors.map
    (fun r => if r.name = sensor.name then { r with state := sensor.state } else r)
  let sensors₂ := if updated then sensors₁ else sensors₁ ++ [sensor]
  ({ st with sensors := sensors₂ }, broadcastSensorChange sensor st.conns)

/-- The registerConnCh case of Server.loop: append the connection to
srv.conns, then dump the current sensor records into it one by one
(sendSensorStates); the reader goroutine it spawns is modelled by the
later unregisterConn step. -/
def registerConn (conn : Nat) (st : ServerState) :
    ServerState × List (Nat × Sensor) :=
  ({ st with conns := st.conns ++ [conn] }, sendSensorStates conn st.sensors)

/-- The deletion loop of the unregisterConnCh case of Server.loop,
verbatim: for i := 0; i < len(conns); i++, and when conns[i] equals the
connection, conns = append(conns[:i], conns[i+1:]...) - the element that
slides into position i is then skipped by the i++ of the same iteration. -/
def removeConnFrom (conn : Nat) (conns : List Nat) (i : Nat) : List Nat :=
  if h : i < conns.length then
    if conns[i] = conn then
      removeConnFrom conn (conns.take i ++ conns.drop (i + 1)) (i + 1)
    else
      removeConnFrom conn conns (i + 1)
  else
    conns
termination_by conns.length - i
decreasing_by
  · simp only [List.length_append, List.length_take, List.length_drop]
    omega
  · omega

/-- The unregisterConnCh case of Server.loop: run the deletion loop over
srv.conns starting at index 0. -/
def unregisterConn (conn : Nat) (st : ServerState) : ServerState :=
  { st with conns := removeConnFrom conn st.conns 0 }

/-- Structural restatement of the deletion loop, used to reason about
removeConnFrom: scan the list; on a match drop the element and skip the
one that slides into its position (the i++ after the in-place append). -/
def removeScan (conn : Nat) : List Nat → List Nat
  | [] => []
  | [x] => if x = conn then [] else [x]
  | x :: y :: ys =>
    if x = conn then y :: removeScan conn ys
    else x :: removeScan conn (y :: ys)

/-- A registry state with the same connection handle registered twice. -/
def connsDupState : ServerState :=
  { sensors := [], conns := [5, 5], running := false,
    terminating := false, terminated := false }

/-- The serveSensorsCh case of Server.loop renders 200 OK with the JSON
array srv.sensors; Server.serveSensors instead answers 503 Service
Unavailable when termCh is closed. -/
inductive SensorsResponse where
  | ok (body : List Sensor)
  | serviceUnavailable
deriving DecidableEq, Repr

/-- Server.serveSensors combined with the serveSensorsCh case of
Server.loop: when the server is terminating (termCh closed, so the loop no
longer receives) answer 503 Service Unavailable; otherwise the loop
renders 200 OK with the sensor records and mutates nothing. -/
def serveSensors (st : ServerState) : SensorsResponse × ServerState :=
  if st.terminating then
    (.serviceUnavailable, st)
  else
    (.ok st.sensors, st)

/-- A sensor capability (sensors.Sensor) as the Hub sees it during
registration: Name(), State(), and the outcome of Watch(handler) - none
when Watch succeeds, some message when it returns an error. -/
structure Capability where
  name : String
  state : String
  watchErr : Option String
deriving DecidableEq, Repr

/-- The value sent on errCh by the registerSensorCh case of Server.loop. -/
inductive RegisterResult where
  | ok
  | errRegistered (name : String)
  | errWatch (msg : String)
deriving DecidableEq, Repr

/-- The outcome of one registerSensorCh step: the reply on errCh, the new
Hub state, the records written to connections, and whether sensor.Watch
was invoked. -/
structure RegisterOutcome where
  result : RegisterResult
  state : ServerState
  sent : List (Nat × Sensor)
  watchCalled : Bool
deriving DecidableEq, Repr

/-- The registerSensorCh case of Server.loop: reply ErrRegistered and stop
when a record with the same name is already in srv.sensors; otherwise call
sensor.Watch, and on error reply that error and stop; otherwise append the
record {Name, State} to srv.sensors, reply nil, and broadcast the record
when the server is running. -/
def registerSensor (cap : Capability) (st : ServerState) : RegisterOutcome :=
  if st.sensors.any (fun r => r.name = cap.name) then
    { result := .errRegistered cap.name, state := st, sent := [], watchCalled := false }
  else
    match cap.watchErr with
    | some msg =>
        { result := .errWatch msg, state := st, sent := [], watchCalled := true }
    | none =>
        let record : Sensor := { name := cap.name, state := cap.state }
        { result := .ok,
          state := { st with sensors := st.sensors ++ [record] },
          sent := if st.running then broadcastSensorChange record st.conns else [],
          watchCalled := true }

/-- The value Server.Terminate returns. -/
inductive TerminateResult where
  | ok
  | errTerminating
  | errTerminated
deriving DecidableEq, Repr

/-- The observable effects of one Terminate call: the connections whose
Close was called by the termCh case of the loop, and how many
UnregisterConnection acknowledgements the loop drained from
unregisterConnCh before closing termAckCh. -/
structure TerminateEffects where
  closed : List Nat
  acksDrained : Nat
deriving DecidableEq, Repr

/-- Server.Terminate combined with the termCh case of Server.loop: when
termCh is already closed return ErrTerminating, when termAckCh is already
closed return ErrTerminated, and in both cases touch nothing; otherwise
close termCh, upon which the loop closes every connection in srv.conns,
drains one unregisterConnCh message per connection, closes termAckCh and
returns - only then does Terminate return nil. -/
def terminate (st : ServerState) : TerminateResult × ServerState × TerminateEffects :=
  if st.terminating then
    (.errTerminating, st, { closed := [], acksDrained := 0 })
  else if st.terminated then
    (.errTerminated, st, { closed := [], acksDrained := 0 })
  else
    (.ok,
     { st with terminating := true, terminated := true },
     { closed := st.conns, acksDrained := st.conns.length })

/-- Server.ListenAndServe, up to marking the server as running: when
runningCh is already closed it returns ErrRunning, otherwise it closes
runningCh (only this registry-visible effect is modelled). -/
def listenAndServe (st : ServerState) : ServerState :=
  { st with running := true }

/-- One message delivered to the Hub mailbox of Server.loop, or one of the
synchronous entry points racing with it. -/
inductive Command where
  | regSensor (cap : Capability)
  | changed (sensor : Sensor)
  | regConn (conn : Nat)
  | unregConn (conn : Nat)
  | snapshot
  | listen
  | term
deriving DecidableEq, Repr

/-- One serialized Hub processing step. After the loop has returned
(termAckCh closed) no further message is processed. -/
def hubStep (cmd : Command) (st : ServerState) : ServerState :=
  if st.terminated then st
  else
    match cmd with
    | .regSensor cap => (registerSensor cap st).state
    | .changed sensor => (sensorChanged sensor st).1
    | .regConn conn => (registerConn conn st).1
    | .unregConn conn => unregisterConn conn st
    | .snapshot => (serveSensors st).2
    | .listen => listenAndServe st
    | .term => (terminate st).2.1

/-- Run a sequence of Hub commands from a starting state. -/
def hubRun (cmds : List Command) (st : ServerState) : ServerState :=
  cmds.foldl (fun s c => hubStep c s) st

/-! Forwarder (forwarder/forwarder.go). The reconnect logic of
Forwarder.connectionManager keeps two local variables, reconnectCh (a
timer channel, nil while connected) and reconnectBackoff; durations are
modelled in seconds. -/

/-- initialReconnectBackoff = 2 * time.Second. -/
def initialReconnectBackoff : Nat := 2

/-- maxReconnectBackoff = 1 * time.Minute, in seconds. -/
def maxReconnectBackoff : Nat := 60

/-- The reconnect state of Forwarder.connectionManager: reconnectWait is
the duration the pending time.After timer was armed with (none while
reconnectCh is nil, i.e. while connected), reconnectBackoff the current
backoff variable. -/
structure ReconnectState where
  reconnectWait : Option Nat
  reconnectBackoff : Nat
deriving DecidableEq, Repr

/-- reconnectNow: arm the timer with 0 and reset the backoff to
initialReconnectBackoff. Called before the loop starts and whenever the
worker tomb dies (the connection was lost after a successful dial). -/
def reconnectNow : ReconnectState :=
  { reconnectWait := some 0, reconnectBackoff := initialReconnectBackoff }

/-- reconnectWithBackoff: arm the timer with the current backoff, then
double the backoff, capped at maxReconnectBackoff. Called when a dial
fails. -/
def reconnectWithBackoff (b : ReconnectState) : ReconnectState :=
  { reconnectWait := some b.reconnectBackoff,
    reconnectBackoff := min (2 * b.reconnectBackoff) maxReconnectBackoff }

/-- The events of the connectionManager select that touch the reconnect
state: the dial after the timer fires fails, the dial succeeds
(reconnectCh is set to nil), or the worker tomb dies. -/
inductive ConnEvent where
  | dialFailed
  | dialSucceeded
  | workersDied
deriving DecidableEq, Repr

/-- One iteration of the connectionManager select, restricted to the
reconnect state. -/
def connStep (e : ConnEvent) (b : ReconnectState) : ReconnectState :=
  match e with
  | .dialFailed => reconnectWithBackoff b
  | .dialSucceeded => { b with reconnectWait := none }
  | .workersDied => reconnectNow

/-- The reconnect state after k consecutive dial failures, starting from
the reconnectNow state (the state at loop entry, and again right after a
lost connection). The wait before attempt k+1 is its reconnectWait. -/
def afterFailures : Nat → ReconnectState
  | 0 => reconnectNow
  | k + 1 => connStep .dialFailed (afterFailures k)

/-! Forwarder.readLoop: the dispatch on one received message. -/

/-- websocket.TextMessage. -/
def textMessage : Nat := 1

/-- One outcome of conn.ReadMessage() as seen by Forwarder.readLoop: an
error (which is or is not a *websocket.CloseError), or a message with its
type and the outcome of decoding its payload as a
common.SensorStateChangedEvent with encoding/json (none when the decoder
returns an error, some event when it succeeds). -/
inductive ReadOutcome where
  | readErr (isCloseError : Bool)
  | message (messageType : Nat) (decoded : Option Sensor)
deriving DecidableEq, Repr

/-- What one readLoop iteration does with the outcome. -/
inductive ReadAction where
  | exitClean
  | exitErr
  | dropContinue
  | forward (event : Sensor)
deriving DecidableEq, Repr

/-- One iteration of Forwarder.readLoop: on a read error return nil for a
CloseError and the error otherwise (a non-nil return tears the connection
down); drop any message that is not a text message and continue; drop a
text message whose payload does not decode and continue; forward a decoded
event into forwardCh. -/
def readLoopStep (r : ReadOutcome) : ReadAction :=
  match r with
  | .readErr true => .exitClean
  | .readErr false => .exitErr
  | .message mt decoded =>
      if mt ≠ textMessage then .dropContinue
      else
        match decoded with
        | none => .dropContinue
        | some event => .forward event

/-! Helper lemmas. -/

theorem removeScan_cons_of_ne {conn x : Nat} (hx : ¬x = conn) (xs : List Nat) :
    removeScan conn (x :: xs) = x :: removeScan conn xs := by
  cases xs with
  | nil => simp [removeScan, hx]
  | cons y ys => simp [removeScan, hx]

theorem removeConnFrom_eq_removeScan (conn : Nat) (conns : List Nat) (i : Nat) :
    removeConnFrom conn conns i = conns.take i ++ removeScan conn (conns.drop i) := by
  induction conns, i using removeConnFrom.induct conn with
  | case1 conns i h hx ih =>
    rw [removeConnFrom, dif_pos h, if_pos hx, ih]
    rw [List.drop_eq_getElem_cons h, hx]
    have hA : (List.take i conns).length = i := by
      simp only [List.length_take]
      omega
    cases hd : List.drop (i + 1) conns with
    | nil =>
      simp [hd, List.take_append_eq_append_take, List.drop_append_eq_append_drop, hA,
            List.take_of_length_le, List.drop_eq_nil_of_le, removeScan]
    | cons y ys =>
      simp [hd, List.take_append_eq_append_take, List.drop_append_eq_append_drop, hA,
            List.take_of_length_le, List.drop_eq_nil_of_le, removeScan]
  | case2 conns i h hx ih =>
    rw [removeConnFrom, dif_pos h, if_neg hx, ih]
    rw [List.drop_eq_getElem_cons h, removeScan_cons_of_ne hx]
    have htake : List.take (i + 1) conns = List.take i conns ++ [conns[i]] := by
      rw [List.take_succ, List.getElem?_eq_getElem h]
      rfl
    rw [htake, List.append_assoc, List.singleton_append]
  | case3 conns i h =>
    rw [removeConnFrom, dif_neg h]
    rw [List.take_of_length_le (by omega), List.drop_eq_nil_of_le (by omega)]
    simp [removeScan]

theorem removeScan_eq_erase (conn : Nat) (l : List Nat) :
    l.count conn ≤ 1 → removeScan conn l = l.erase conn := by
  induction l using removeScan.induct conn with
  | case1 =>
    intro _
    simp [removeScan]
  | case2 =>
    intro _
    simp [removeScan]
  | case3 x hx =>
    intro _
    have hbeq : ¬(x == conn) = true := by simpa using hx
    rw [removeScan_cons_of_ne hx, List.erase_cons_tail hbeq]
    simp [removeScan]
  | case4 y ys ih =>
    intro h
    have hcount : List.count conn (y :: ys) = 0 := by
      rw [List.count_cons_self] at h
      omega
    have hmem : conn ∉ y :: ys := List.count_eq_zero.mp hcount
    have hys : conn ∉ ys := fun hm => hmem (List.mem_cons_of_mem y hm)
    have hys0 : List.count conn ys = 0 := List.count_eq_zero.mpr hys
    rw [List.erase_cons_head]
    have hstep : removeScan conn (conn :: y :: ys) = y :: removeScan conn ys := by
      simp [removeScan]
    rw [hstep, ih (by omega), List.erase_of_not_mem hys]
  | case5 x y ys hx ih =>
    intro h
    have hbeq : ¬(x == conn) = true := by simpa using hx
    rw [removeScan_cons_of_ne hx, List.erase_cons_tail hbeq]
    have hc : List.count conn (y :: ys) ≤ 1 := by
      rw [List.count_cons] at h
      omega
    rw [ih hc]

theorem removeConnFrom_zero_eq_erase (conn : Nat) (l : List Nat)
    (h : l.count conn ≤ 1) :
    removeConnFrom conn l 0 = l.erase conn := by
  rw [removeConnFrom_eq_removeScan]
  simpa using removeScan_eq_erase conn l h

/-- Claim C9, as stated, is false on the code: on a registry holding the
same handle twice in a row, the deletion loop of the unregisterConnCh case
skips the second copy (the element that slides into the removed position
is passed over by the i++), so the handle is still registered afterwards,
and a second UnregisterConnection removes it - the operation is not
idempotent on such a registry. -/
theorem unregisterConn_claim_counterexample :
    5 ∈ (unregisterConn 5 connsDupState).conns ∧
    unregisterConn 5 (unregisterConn 5 connsDupState) ≠ unregisterConn 5 connsDupState := by
  have h1 : unregisterConn 5 connsDupState =
      { sensors := [], conns := [5], running := false,
        terminating := false, terminated := false } := by
    simp [unregisterConn, connsDupState, removeConnFrom]
  have h2 : unregisterConn 5
      { sensors := [], conns := [5], running := false,
        terminating := false, terminated := false } =
      { sensors := [], conns := [], running := false,
        terminating := false, terminated := false } := by
    simp [unregisterConn, removeConnFrom]
  rw [h1, h2]
  constructor
  · simp
  · simp

/-- Claim C9 (amended): for every registry state in which the handle
occurs at most once - as in every state the Hub actually reaches, a
handle being added only once, upon its upgrade - UnregisterConnection
removes the handle if present (the registry becomes the registry with the
first occurrence of the handle erased) and leaves the registry unchanged
otherwise; applying it twice equals applying it once, and afterwards the
registry does not contain the handle. -/
theorem unregisterConn_erase_idempotent (conn : Nat) (st : ServerState)
    (h : st.conns.count conn ≤ 1) :
    (unregisterConn conn st).conns = st.conns.erase conn ∧
    conn ∉ (unregisterConn conn st).conns ∧
    unregisterConn conn (unregisterConn conn st) = unregisterConn conn st ∧
    (conn ∉ st.conns → (unregisterConn conn st).conns = st.conns) := by
  have e1 : (unregisterConn conn st).conns = st.conns.erase conn :=
    removeConnFrom_zero_eq_erase conn st.conns h
  have hcount0 : (st.conns.erase conn).count conn = 0 := by
    rw [List.count_erase_self]
    omega
  have hnm : conn ∉ st.conns.erase conn := List.count_eq_zero.mp hcount0
  refine ⟨e1, by rw [e1]; exact hnm, ?_, ?_⟩
  · have hc2 : (unregisterConn conn st).conns.count conn ≤ 1 := by
      rw [e1, hcount0]
      omega
    calc unregisterConn conn (unregisterConn conn st)
        = { st with conns := removeConnFrom conn (unregisterConn conn st).conns 0 } := rfl
      _ = { st with conns := (unregisterConn conn st).conns } := by
          rw [removeConnFrom_zero_eq_erase conn _ hc2, e1,
              List.erase_of_not_mem hnm]
      _ = unregisterConn conn st := rfl
  · intro hnotin
    rw [e1, List.erase_of_not_mem hnotin]

theorem unregisterConn_erase_idempotent_witness :
    ((⟨[], [3, 5], true, false, false⟩ : ServerState).conns.count 5 ≤ 1) ∧
    ((unregisterConn 5 ⟨[], [3, 5], true, false, false⟩).conns =
        (⟨[], [3, 5], true, false, false⟩ : ServerState).conns.erase 5 ∧
      5 ∉ (unregisterConn 5 ⟨[], [3, 5], true, false, false⟩).conns ∧
      unregisterConn 5 (unregisterConn 5 ⟨[], [3, 5], true, false, false⟩) =
        unregisterConn 5 ⟨[], [3, 5], true, false, false⟩ ∧
      (5 ∉ (⟨[], [3, 5], true, false, false⟩ : ServerState).conns →
        (unregisterConn 5 ⟨[], [3, 5], true, false, false⟩).conns =
          (⟨[], [3, 5], true, false, false⟩ : ServerState).conns)) :=
  ⟨by decide, unregisterConn_erase_idempotent 5 ⟨[], [3, 5], true, false, false⟩ (by decide)⟩

theorem map_update_of_not_any (sensor : Sensor) (l : List Sensor)
    (h : l.any (fun r => r.name = sensor.name) = false) :
    l.map (fun r => if r.name = sensor.name then { r with state := sensor.state } else r)
      = l := by
  rw [List.any_eq_false] at h
  have := List.map_congr_left (l := l)
    (f := fun r => if r.name = sensor.name then { r with state := sensor.state } else r)
    (g := id) ?_
  · simpa using this
  · intro r hr
    have hne : ¬r.name = sensor.name := by simpa using h r hr
    simp [hne]

theorem not_mem_names_of_not_any (sensor : Sensor) (l : List Sensor)
    (h : l.any (fun r => r.name = sensor.name) = false) :
    sensor.name ∉ l.map Sensor.name := by
  rw [List.any_eq_false] at h
  intro hmem
  obtain ⟨r, hr, he⟩ := List.mem_map.mp hmem
  exact absurd he (by simpa using h r hr)

/-- Claim C1: a SensorChanged(name, newState) step updates the record with
that name in place when one exists and appends {name, newState} when none
does, and in both cases writes the resulting record to every open
connection - the broadcast list does not depend on whether newState equals
the previous state (no suppression of no-op changes). -/
theorem sensorChanged_upsert_always_broadcasts (sensor : Sensor) (st : ServerState) :
    (sensorChanged sensor st).2 = st.conns.map (fun c => (c, sensor)) ∧
    (if st.sensors.any (fun r => r.name = sensor.name) = true then
      (sensorChanged sensor st).1.sensors =
        st.sensors.map
          (fun r => if r.name = sensor.name then { r with state := sensor.state } else r)
    else
      (sensorChanged sensor st).1.sensors = st.sensors ++ [sensor]) := by
  constructor
  · rfl
  · by_cases h : st.sensors.any (fun r => r.name = sensor.name) = true
    · rw [if_pos h]
      simp [sensorChanged, h]
    · rw [if_neg h]
      have h' : st.sensors.any (fun r => r.name = sensor.name) = false :=
        Bool.eq_false_iff.mpr h
      simp [sensorChanged, h', map_update_of_not_any sensor st.sensors h']

/-- Claim C3: registering a new subscriber connection first appends it to
the connection registry and then sends it one message per current sensor
record, in registry order - exactly as many replay messages as there are
records; any subsequent SensorChanged broadcast then reaches the new
connection (its replay happens strictly before later broadcasts, which are
emitted by later serialized steps). -/
theorem registerConn_replays_current_state (conn : Nat) (st : ServerState) :
    (registerConn conn st).2 = st.sensors.map (fun r => (conn, r)) ∧
    (registerConn conn st).2.length = st.sensors.length ∧
    (registerConn conn st).1.conns = st.conns ++ [conn] ∧
    ∀ sensor : Sensor, (conn, sensor) ∈ (sensorChanged sensor (registerConn conn st).1).2 := by
  refine ⟨rfl, by simp [registerConn, sendSensorStates], rfl, ?_⟩
  intro sensor
  have hmem : conn ∈ (registerConn conn st).1.conns := by
    simp [registerConn]
  exact List.mem_map_of_mem (fun c => (c, sensor)) hmem

/-- Claim C8: a GET /api/sensors request leaves the Hub state unchanged
and answers 200 OK with the records in insertion order exactly when the
Hub is not terminating, and 503 Service Unavailable exactly when it is. -/
theorem serveSensors_snapshot_or_unavailable (st : ServerState) :
    (serveSensors st).2 = st ∧
    (serveSensors st).1 =
      (if st.terminating then .serviceUnavailable else .ok st.sensors) ∧
    ((serveSensors st).1 = SensorsResponse.serviceUnavailable ↔ st.terminating = true) := by
  by_cases h : st.terminating = true
  · simp [serveSensors, h]
  · have h' : st.terminating = false := Bool.eq_false_iff.mpr h
    simp [serveSensors, h']

/-- Claim C2: registering a capability whose name is already in the
registry replies ErrRegistered, mutates nothing, sends nothing and never
calls Watch; consequently registering the same name twice succeeds the
first time, conflicts the second time, and leaves exactly one record with
that name in the registry. -/
theorem registerSensor_duplicate_conflict :
    (∀ (cap : Capability) (st : ServerState),
      st.sensors.any (fun r => r.name = cap.name) = true →
        registerSensor cap st =
          { result := .errRegistered cap.name, state := st,
            sent := [], watchCalled := false }) ∧
    (∀ (cap₁ cap₂ : Capability) (st : ServerState),
      st.sensors.any (fun r => r.name = cap₁.name) = false →
      cap₁.watchErr = none →
      cap₂.name = cap₁.name →
        (registerSensor cap₁ st).result = .ok ∧
        (registerSensor cap₂ (registerSensor cap₁ st).state).result =
          .errRegistered cap₂.name ∧
        ((registerSensor cap₁ st).state.sensors.filter
            (fun r => r.name = cap₁.name)).length = 1) := by
  constructor
  · intro cap st h
    simp [registerSensor, h]
  · intro cap₁ cap₂ st h hw hname
    have hstate : (registerSensor cap₁ st).state =
        { st with sensors := st.sensors ++ [⟨cap₁.name, cap₁.state⟩] } := by
      simp [registerSensor, h, hw]
    refine ⟨by simp [registerSensor, h, hw], ?_, ?_⟩
    · rw [hstate]
      have hany2 : (st.sensors ++ [(⟨cap₁.name, cap₁.state⟩ : Sensor)]).any
          (fun r => r.name = cap₂.name) = true := by
        simp [hname]
      simp [registerSensor, hany2]
    · rw [hstate]
      have hfil : st.sensors.filter (fun r => r.name = cap₁.name) = [] := by
        rw [List.filter_eq_nil_iff]
        rw [List.any_eq_false] at h
        intro a ha
        simpa using h a ha
      simp [List.filter_append, hfil]

theorem registerSensor_duplicate_conflict_witness :
    (registerSensor ⟨"door", "open", none⟩
        { sensors := [⟨"door", "locked"⟩], conns := [], running := false,
          terminating := false, terminated := false } =
      { result := .errRegistered "door",
        state := { sensors := [⟨"door", "locked"⟩], conns := [], running := false,
                   terminating := false, terminated := false },
        sent := [], watchCalled := false }) ∧
    ((registerSensor ⟨"door", "locked", none⟩ initialServer).result = .ok ∧
      (registerSensor ⟨"door", "open", none⟩
          (registerSensor ⟨"door", "locked", none⟩ initialServer).state).result =
        .errRegistered "door" ∧
      ((registerSensor ⟨"door", "locked", none⟩ initialServer).state.sensors.filter
          (fun r => r.name = "door")).length = 1) :=
  ⟨registerSensor_duplicate_conflict.1 ⟨"door", "open", none⟩ _ (by decide),
   registerSensor_duplicate_conflict.2 ⟨"door", "locked", none⟩ ⟨"door", "open", none⟩
     initialServer (by decide) rfl rfl⟩

/-- Claim C10: when the name is free but Watch fails during registration,
the error is replied to the caller, the Hub state is unchanged, nothing is
broadcast (though Watch was indeed called), and a later registration of a
capability with the same name whose Watch succeeds replies nil. -/
theorem registerSensor_watch_failure (cap cap₂ : Capability) (msg : String)
    (st : ServerState)
    (hfree : st.sensors.any (fun r => r.name = cap.name) = false)
    (hw : cap.watchErr = some msg)
    (hname : cap₂.name = cap.name) (hw₂ : cap₂.watchErr = none) :
    registerSensor cap st =
      { result := .errWatch msg, state := st, sent := [], watchCalled := true } ∧
    (registerSensor cap₂ st).result = .ok := by
  constructor
  · simp [registerSensor, hfree, hw]
  · have hfree₂ : st.sensors.any (fun r => r.name = cap₂.name) = false := by
      rw [hname]
      exact hfree
    simp [registerSensor, hfree₂, hw₂]

theorem registerSensor_watch_failure_witness :
    registerSensor ⟨"door", "locked", some "gpio watch failed"⟩ initialServer =
      { result := .errWatch "gpio watch failed", state := initialServer,
        sent := [], watchCalled := true } ∧
    (registerSensor ⟨"door", "locked", none⟩ initialServer).result = .ok :=
  registerSensor_watch_failure ⟨"door", "locked", some "gpio watch failed"⟩
    ⟨"door", "locked", none⟩ "gpio watch failed" initialServer (by decide) rfl rfl rfl

/-- Claim C4: a first Terminate on a Hub that is neither terminating nor
terminated succeeds, closes every open connection and drains one
UnregisterConnection acknowledgement per previously open connection before
returning; a Terminate on the resulting state returns the terminating
error immediately, closing and draining nothing. -/
theorem terminate_closes_all_then_errors (st : ServerState)
    (h₁ : st.terminating = false) (h₂ : st.terminated = false) :
    terminate st =
      (.ok, { st with terminating := true, terminated := true },
        { closed := st.conns, acksDrained := st.conns.length }) ∧
    terminate (terminate st).2.1 =
      (.errTerminating, (terminate st).2.1, { closed := [], acksDrained := 0 }) := by
  have e1 : terminate st =
      (.ok, { st with terminating := true, terminated := true },
        { closed := st.conns, acksDrained := st.conns.length }) := by
    simp [terminate, h₁, h₂]
  refine ⟨e1, ?_⟩
  rw [e1]
  simp [terminate]

theorem terminate_closes_all_then_errors_witness :
    terminate ⟨[⟨"door", "locked"⟩], [7], true, false, false⟩ =
      (.ok, ⟨[⟨"door", "locked"⟩], [7], true, true, true⟩,
        { closed := [7], acksDrained := 1 }) ∧
    terminate (terminate ⟨[⟨"door", "locked"⟩], [7], true, false, false⟩).2.1 =
      (.errTerminating,
        (terminate ⟨[⟨"door", "locked"⟩], [7], true, false, false⟩).2.1,
        { closed := [], acksDrained := 0 }) :=
  terminate_closes_all_then_errors ⟨[⟨"door", "locked"⟩], [7], true, false, false⟩ rfl rfl

theorem afterFailures_backoff (k : Nat) :
    (afterFailures k).reconnectBackoff = min (2 ^ (k + 1)) maxReconnectBackoff := by
  induction k with
  | zero => decide
  | succ k ih =>
    show (connStep .dialFailed (afterFailures k)).reconnectBackoff = _
    simp only [connStep, reconnectWithBackoff]
    rw [ih]
    have h2 : (2 : Nat) ^ (k + 1 + 1) = 2 * 2 ^ (k + 1) := by ring
    rw [h2]
    simp only [maxReconnectBackoff]
    omega

/-- Claim C5, as stated, is false on the code: after one failed attempt
(k = 1) the forwarder arms the reconnect timer with the initial backoff of
2 seconds, while min(initial * 2^k, cap) would be 4 seconds - the doubling
happens after the wait is scheduled, so the exponent lags the claim by
one. -/
theorem forwarder_backoff_spec_counterexample :
    (afterFailures 1).reconnectWait = some 2 ∧
    min (initialReconnectBackoff * 2 ^ 1) maxReconnectBackoff = 4 ∧
    (2 : Nat) ≠ 4 := by decide

/-- Claim C5 (amended): after k consecutive failed connection attempts
(k at least 1) the forwarder waits min(initial * 2^(k-1), cap) before
attempt k+1, with initial = 2 seconds and cap = 60 seconds; after a
successful connection, the wait scheduled by the next failure (the
connection having died, which re-arms the timer and resets the backoff) is
the initial value again. -/
theorem forwarder_backoff_wait (k : Nat) (b : ReconnectState) (h : 1 ≤ k) :
    (afterFailures k).reconnectWait =
      some (min (initialReconnectBackoff * 2 ^ (k - 1)) maxReconnectBackoff) ∧
    (connStep .dialFailed
        (connStep .workersDied (connStep .dialSucceeded b))).reconnectWait =
      some initialReconnectBackoff := by
  constructor
  · obtain ⟨j, rfl⟩ : ∃ j, k = j + 1 := ⟨k - 1, by omega⟩
    show (connStep .dialFailed (afterFailures j)).reconnectWait = _
    simp only [connStep, reconnectWithBackoff]
    rw [afterFailures_backoff j]
    rw [Nat.add_sub_cancel]
    simp only [initialReconnectBackoff]
    rw [← pow_succ']
  · rfl

theorem forwarder_backoff_wait_witness :
    1 ≤ 3 ∧
    ((afterFailures 3).reconnectWait =
        some (min (initialReconnectBackoff * 2 ^ (3 - 1)) maxReconnectBackoff) ∧
      (connStep .dialFailed
          (connStep .workersDied
            (connStep .dialSucceeded ⟨none, 32⟩))).reconnectWait =
        some initialReconnectBackoff) :=
  ⟨by decide, forwarder_backoff_wait 3 ⟨none, 32⟩ (by decide)⟩

/-- Claim C7: an inbound frame that is not a text message, or is a text
message whose payload does not decode as a {name, state} event, makes the
read loop log and drop it and continue: it neither exits the loop (which
would terminate the connection) nor forwards anything to the Hub. -/
theorem readLoop_drops_malformed (mt : Nat) (decoded : Option Sensor)
    (h : mt ≠ textMessage ∨ decoded = none) :
    readLoopStep (.message mt decoded) = .dropContinue ∧
    (∀ event : Sensor, readLoopStep (.message mt decoded) ≠ .forward event) ∧
    readLoopStep (.message mt decoded) ≠ .exitClean ∧
    readLoopStep (.message mt decoded) ≠ .exitErr := by
  have heq : readLoopStep (.message mt decoded) = .dropContinue := by
    rcases h with h | h
    · simp [readLoopStep, h]
    · subst h
      by_cases hmt : mt = textMessage
      · simp [readLoopStep, hmt]
      · simp [readLoopStep, hmt]
  refine ⟨heq, ?_, ?_, ?_⟩ <;> simp [heq]

theorem readLoop_drops_malformed_witness :
    ((2 ≠ textMessage ∨ (some (⟨"door", "locked"⟩ : Sensor)) = none) ∧
      (readLoopStep (.message 2 (some ⟨"door", "locked"⟩)) = .dropContinue ∧
        (∀ event : Sensor,
          readLoopStep (.message 2 (some ⟨"door", "locked"⟩)) ≠ .forward event) ∧
        readLoopStep (.message 2 (some ⟨"door", "locked"⟩)) ≠ .exitClean ∧
        readLoopStep (.message 2 (some ⟨"door", "locked"⟩)) ≠ .exitErr)) ∧
    ((1 ≠ textMessage ∨ (none : Option Sensor) = none) ∧
      (readLoopStep (.message 1 (none : Option Sensor)) = .dropContinue ∧
        (∀ event : Sensor,
          readLoopStep (.message 1 (none : Option Sensor)) ≠ .forward event) ∧
        readLoopStep (.message 1 (none : Option Sensor)) ≠ .exitClean ∧
        readLoopStep (.message 1 (none : Option Sensor)) ≠ .exitErr)) :=
  ⟨⟨Or.inl (by decide), readLoop_drops_malformed 2 (some ⟨"door", "locked"⟩)
      (Or.inl (by decide))⟩,
   ⟨Or.inr rfl, readLoop_drops_malformed 1 (none : Option Sensor) (Or.inr rfl)⟩⟩

theorem names_map_update (sensor : Sensor) (l : List Sensor) :
    (l.map (fun r =>
        if r.name = sensor.name then { r with state := sensor.state } else r)).map
      Sensor.name = l.map Sensor.name := by
  rw [List.map_map]
  apply List.map_congr_left
  intro a _
  by_cases h : a.name = sensor.name <;> simp [h, Function.comp]

theorem nodup_names_append_single (l : List Sensor) (sensor : Sensor)
    (h : (l.map Sensor.name).Nodup) (hnm : sensor.name ∉ l.map Sensor.name) :
    ((l ++ [sensor]).map Sensor.name).Nodup := by
  rw [List.map_append]
  refine List.Nodup.append h (List.nodup_singleton _) ?_
  intro a ha hb
  simp only [List.map_cons, List.map_nil, List.mem_singleton] at hb
  subst hb
  exact hnm ha

theorem terminate_keeps_sensors (st : ServerState) :
    (terminate st).2.1.sensors = st.sensors := by
  unfold terminate
  by_cases hA : st.terminating = true
  · simp [hA]
  · by_cases hB : st.terminated = true
    · simp [hA, hB]
    · simp [hA, hB]

theorem serveSensors_keeps_state (st : ServerState) :
    (serveSensors st).2 = st := by
  unfold serveSensors
  by_cases hA : st.terminating = true
  · simp [hA]
  · simp [hA]

theorem hubStep_names_nodup (cmd : Command) (st : ServerState)
    (h : (st.sensors.map Sensor.name).Nodup) :
    ((hubStep cmd st).sensors.map Sensor.name).Nodup := by
  unfold hubStep
  by_cases ht : st.terminated = true
  · simpa [ht] using h
  · rw [if_neg ht]
    cases cmd with
    | regSensor cap =>
      by_cases hdup : st.sensors.any (fun r => r.name = cap.name) = true
      · simpa [registerSensor, hdup] using h
      · have hdup' : st.sensors.any (fun r => r.name = cap.name) = false :=
          Bool.eq_false_iff.mpr hdup
        cases hw : cap.watchErr with
        | some msg => simpa [registerSensor, hdup', hw] using h
        | none =>
          have hnm : cap.name ∉ st.sensors.map Sensor.name :=
            not_mem_names_of_not_any ⟨cap.name, cap.state⟩ st.sensors hdup'
          have hstate : (registerSensor cap st).state.sensors =
              st.sensors ++ [⟨cap.name, cap.state⟩] := by
            simp [registerSensor, hdup', hw]
          rw [hstate]
          exact nodup_names_append_single st.sensors ⟨cap.name, cap.state⟩ h hnm
    | changed sensor =>
      by_cases hdup : st.sensors.any (fun r => r.name = sensor.name) = true
      · have hstate : (sensorChanged sensor st).1.sensors =
            st.sensors.map (fun r =>
              if r.name = sensor.name then { r with state := sensor.state } else r) := by
          simp [sensorChanged, hdup]
        rw [hstate, names_map_update]
        exact h
      · have hdup' : st.sensors.any (fun r => r.name = sensor.name) = false :=
          Bool.eq_false_iff.mpr hdup
        have hnm : sensor.name ∉ st.sensors.map Sensor.name :=
          not_mem_names_of_not_any sensor st.sensors hdup'
        have hstate : (sensorChanged sensor st).1.sensors =
            st.sensors ++ [sensor] := by
          simp [sensorChanged, hdup', map_update_of_not_any sensor st.sensors hdup']
        rw [hstate]
        exact nodup_names_append_single st.sensors sensor h hnm
    | regConn conn => simpa [registerConn] using h
    | unregConn conn => simpa [unregisterConn] using h
    | snapshot => simpa [serveSensors_keeps_state] using h
    | listen => simpa [listenAndServe] using h
    | term => simpa [terminate_keeps_sensors] using h

theorem hubRun_names_nodup (cmds : List Command) (st : ServerState)
    (h : (st.sensors.map Sensor.name).Nodup) :
    ((hubRun cmds st).sensors.map Sensor.name).Nodup := by
  induction cmds generalizing st with
  | nil => exact h
  | cons c cs ih => exact ih (hubStep c st) (hubStep_names_nodup c st h)

/-- Claim C6: every Hub state reachable from the initial state by any
sequence of serialized commands (RegisterSensor, SensorChanged,
RegisterConnection, UnregisterConnection, SnapshotSensors, ListenAndServe,
Terminate) has a sensor registry with pairwise distinct names. -/
theorem hub_sensor_names_unique (cmds : List Command) :
    ((hubRun cmds initialServer).sensors.map Sensor.name).Nodup :=
  hubRun_names_nodup cmds initialServer (by simp [initialServer])

end FlushCapacitor

